import Mathlib

/-!
Verification of the YuPost wallet core against its design specification.

This file shallowly embeds the transaction-ledger data model and the
operations of `src/yupost/yupostutils.h` (the wallet header: `CWalletTx`,
its `Confirmation` record and status setters, serialization, `Init`,
`MarkDirty`) and of the wallet model (`WalletModel::prepareTransaction`),
and proves or refutes the specification's claims about them.

Machine integers: `uint256` block hashes are modelled as `Nat` (null = 0),
`CAmount` and heights as `Int`.  Where a function's body is not among the
available sources (only its declaration and documentation), the definition
is modelled from the specification's words and says so in its doc comment.
-/

namespace YuPost

/-- Transaction confirmation status, from the `CWalletTx::Status` enumeration:
`UNCONFIRMED`, `CONFIRMED`, `CONFLICTED`, `ABANDONED`. -/
inductive Status
  | UNCONFIRMED
  | CONFIRMED
  | CONFLICTED
  | ABANDONED
  deriving DecidableEq, Repr

/-- `uint256` modelled as a natural number; `IsNull()` is `= 0`. -/
abbrev Uint256 := Nat

/-- The `ABANDON_HASH` sentinel declared in `CWalletTx`: a distinguished
non-null hash "used in hashBlock to indicate tx has been abandoned, only used
at serialization/deserialization to avoid ambiguity with conflicted".  Its
defining translation unit is outside the available sources; upstream it is the
256-bit value one.  Only the facts that it is fixed and non-null matter. -/
def ABANDON_HASH : Uint256 := 1

/-- `CWalletTx::Confirmation`: "tx status and a triplet of {block height/block
hash/tx index in block}". -/
structure Confirmation where
  status : Status
  block_height : Int
  hashBlock : Uint256
  nIndex : Int
  deriving DecidableEq, Repr

/-- The default `Confirmation` constructor:
`Confirmation(Status s = UNCONFIRMED, int b = 0, uint256 h = uint256(), int i = 0)`. -/
def Confirmation.init : Confirmation := ⟨.UNCONFIRMED, 0, 0, 0⟩

/-- `CWalletTx::setAbandoned`: sets status `ABANDONED` and zeroes the block
hash, block height and index. -/
def setAbandoned (_c : Confirmation) : Confirmation :=
  { status := .ABANDONED, block_height := 0, hashBlock := 0, nIndex := 0 }

/-- `CWalletTx::setConflicted`: sets only the status field. -/
def setConflicted (c : Confirmation) : Confirmation := { c with status := .CONFLICTED }

/-- `CWalletTx::setUnconfirmed`: sets only the status field. -/
def setUnconfirmed (c : Confirmation) : Confirmation := { c with status := .UNCONFIRMED }

/-- `CWalletTx::setConfirmed`: sets only the status field. -/
def setConfirmed (c : Confirmation) : Confirmation := { c with status := .CONFIRMED }

/-- The confirmation-relevant part of the serialized stream produced by
`CWalletTx::Serialize`:
`serializedHash = isAbandoned() ? ABANDON_HASH : m_confirm.hashBlock` and
`serializedIndex = isAbandoned() || isConflicted() ? -1 : m_confirm.nIndex`. -/
def serializeConfirm (c : Confirmation) : Uint256 × Int :=
  (if c.status = .ABANDONED then ABANDON_HASH else c.hashBlock,
   if c.status = .ABANDONED ∨ c.status = .CONFLICTED then -1 else c.nIndex)

/-- The confirmation produced by `CWalletTx::Unserialize` from a stream whose
confirmation-relevant fields are `hash` (read into `m_confirm.hashBlock` after
`Init` reset `m_confirm`) and `idx` (`serializedIndex`):
if `serializedIndex == -1 && m_confirm.hashBlock == ABANDON_HASH` then
`setAbandoned()`; else if `serializedIndex == -1` then `setConflicted()`;
else if `!m_confirm.hashBlock.IsNull()` then `m_confirm.nIndex =
serializedIndex; setConfirmed()`; else the `Init` state is kept. -/
def unserializeConfirm (hash : Uint256) (idx : Int) : Confirmation :=
  let c : Confirmation := { Confirmation.init with hashBlock := hash }
  if idx = -1 ∧ hash = ABANDON_HASH then setAbandoned c
  else if idx = -1 then setConflicted c
  else if hash ≠ 0 then setConfirmed { c with nIndex := idx }
  else c

/-- Deserialization of the result of serialization, restricted to the
confirmation-relevant stream fields. -/
def roundTripConfirm (c : Confirmation) : Confirmation :=
  unserializeConfirm (serializeConfirm c).1 (serializeConfirm c).2

/-- The spec's status/block-hash pairing invariant: `Confirmed`/`Conflicted`
always carry a non-null block hash, `Unconfirmed`/`Abandoned` never do. -/
def pairingInvariant (c : Confirmation) : Prop :=
  ((c.status = .CONFIRMED ∨ c.status = .CONFLICTED) → c.hashBlock ≠ 0) ∧
  ((c.status = .UNCONFIRMED ∨ c.status = .ABANDONED) → c.hashBlock = 0)

instance (c : Confirmation) : Decidable (pairingInvariant c) := by
  unfold pairingInvariant; infer_instance

/-- Modelled from the spec: the class `CachableAmount` is defined outside the
available sources.  Per the spec, derived amounts are "memoized per filter
class"; the memo is represented as a list of (filter, amount) entries and
`Reset` (the call `m_amounts[...].Reset()` made by `MarkDirty`) drops every
cached entry. -/
structure CachableAmount where
  memo : List (Nat × Int)
  deriving DecidableEq, Repr

/-- `CachableAmount::Reset`: clears the cache. -/
def CachableAmount.Reset (_a : CachableAmount) : CachableAmount := ⟨[]⟩

/-- The wallet-local state of a `CWalletTx`: the raw transaction reference
(opaque identifier), metadata, the four memoized amount caches
(`m_amounts[DEBIT]`, `[CREDIT]`, `[IMMATURE_CREDIT]`, `[AVAILABLE_CREDIT]`),
the cache flags, and the `Confirmation` record. -/
structure CWalletTx where
  tx : Nat
  mapValue : List (String × String)
  vOrderForm : List (String × String)
  fTimeReceivedIsTxTime : Nat
  nTimeReceived : Nat
  nTimeSmart : Nat
  fFromMe : Bool
  nOrderPos : Int
  debitCache : CachableAmount
  creditCache : CachableAmount
  immatureCreditCache : CachableAmount
  availableCreditCache : CachableAmount
  m_is_cache_empty : Bool
  fChangeCached : Bool
  fInMempool : Bool
  nChangeCached : Int
  m_confirm : Confirmation

/-- `CWalletTx::Init`: clears `mapValue` and `vOrderForm`, zeroes the
timestamps and flags, sets `nOrderPos = -1` and `m_confirm = Confirmation{}`. -/
def Init (w : CWalletTx) : CWalletTx :=
  { w with
    mapValue := []
    vOrderForm := []
    fTimeReceivedIsTxTime := 0
    nTimeReceived := 0
    nTimeSmart := 0
    fFromMe := false
    fChangeCached := false
    fInMempool := false
    nChangeCached := 0
    nOrderPos := -1
    m_confirm := Confirmation.init }

/-- `CWalletTx::MarkDirty`: resets the four amount caches, clears
`fChangeCached` and sets `m_is_cache_empty`. -/
def MarkDirty (w : CWalletTx) : CWalletTx :=
  { w with
    debitCache := w.debitCache.Reset
    creditCache := w.creditCache.Reset
    immatureCreditCache := w.immatureCreditCache.Reset
    availableCreditCache := w.availableCreditCache.Reset
    fChangeCached := false
    m_is_cache_empty := true }

/-! ## Claims about `Init`, `MarkDirty` and the pairing invariant -/

/-- Claim C7: every newly created wallet transaction starts Unconfirmed —
after `Init` the `Confirmation` record has status `UNCONFIRMED`, block
height 0, a null block hash and in-block index 0. -/
theorem init_starts_unconfirmed (w : CWalletTx) :
    (Init w).m_confirm.status = .UNCONFIRMED ∧
    (Init w).m_confirm.block_height = 0 ∧
    (Init w).m_confirm.hashBlock = 0 ∧
    (Init w).m_confirm.nIndex = 0 :=
  ⟨rfl, rfl, rfl, rfl⟩

/-- Claim C8: `MarkDirty` resets the four memoized amount caches and the
cached-change flag, sets the caches-empty flag, and leaves every other field
of the transaction (raw transaction, confirmation record, timestamps,
metadata, mempool flag, cached change amount) unchanged. -/
theorem markDirty_frame (w : CWalletTx) :
    (MarkDirty w).debitCache = CachableAmount.mk [] ∧
    (MarkDirty w).creditCache = CachableAmount.mk [] ∧
    (MarkDirty w).immatureCreditCache = CachableAmount.mk [] ∧
    (MarkDirty w).availableCreditCache = CachableAmount.mk [] ∧
    (MarkDirty w).fChangeCached = false ∧
    (MarkDirty w).m_is_cache_empty = true ∧
    (MarkDirty w).tx = w.tx ∧
    (MarkDirty w).mapValue = w.mapValue ∧
    (MarkDirty w).vOrderForm = w.vOrderForm ∧
    (MarkDirty w).fTimeReceivedIsTxTime = w.fTimeReceivedIsTxTime ∧
    (MarkDirty w).nTimeReceived = w.nTimeReceived ∧
    (MarkDirty w).nTimeSmart = w.nTimeSmart ∧
    (MarkDirty w).fFromMe = w.fFromMe ∧
    (MarkDirty w).nOrderPos = w.nOrderPos ∧
    (MarkDirty w).fInMempool = w.fInMempool ∧
    (MarkDirty w).nChangeCached = w.nChangeCached ∧
    (MarkDirty w).m_confirm = w.m_confirm :=
  ⟨rfl, rfl, rfl, rfl, rfl, rfl, rfl, rfl, rfl, rfl, rfl, rfl, rfl, rfl, rfl,
   rfl, rfl⟩

/-- Claim C1, counterexample: the status setters do not preserve the
status/block-hash pairing.  The freshly initialized confirmation satisfies
the pairing, but `setConfirmed` applied to it yields status `CONFIRMED`
with a null block hash, violating it. -/
theorem setConfirmed_breaks_pairing :
    pairingInvariant Confirmation.init ∧
    ¬ pairingInvariant (setConfirmed Confirmation.init) := by decide

/-- Claim C1 (amended): `setAbandoned` always establishes the pairing;
`setConfirmed`, `setConflicted` and `setUnconfirmed` change only the status
field, so the result satisfies the pairing exactly when the caller has
already set the block hash accordingly (non-null for confirmed/conflicted,
null for unconfirmed); deserialization yields a pairing-satisfying state
whenever the stream does not carry index -1 together with a null hash. -/
theorem pairing_per_operation (c : Confirmation) (hash : Uint256) (idx : Int) :
    pairingInvariant (setAbandoned c) ∧
    (pairingInvariant (setConfirmed c) ↔ c.hashBlock ≠ 0) ∧
    (pairingInvariant (setConflicted c) ↔ c.hashBlock ≠ 0) ∧
    (pairingInvariant (setUnconfirmed c) ↔ c.hashBlock = 0) ∧
    (¬ (idx = -1 ∧ hash = 0) → pairingInvariant (unserializeConfirm hash idx)) := by
  refine ⟨by simp [pairingInvariant, setAbandoned], ?_, ?_, ?_, ?_⟩
  · simp [pairingInvariant, setConfirmed]
  · simp [pairingInvariant, setConflicted]
  · simp [pairingInvariant, setUnconfirmed]
  · intro h
    unfold unserializeConfirm
    by_cases h1 : idx = -1 ∧ hash = ABANDON_HASH
    · simp [h1, pairingInvariant, setAbandoned]
    · by_cases h2 : idx = -1
      · have hh : hash ≠ 0 := fun h0 => h ⟨h2, h0⟩
        have hab : hash ≠ ABANDON_HASH := fun he => h1 ⟨h2, he⟩
        simp [h1, h2, hab, pairingInvariant, setConflicted, Confirmation.init, hh]
      · by_cases h3 : hash ≠ 0
        · simp [h1, h2, h3, pairingInvariant, setConfirmed, Confirmation.init]
        · simp only [not_not] at h3
          simp [h1, h2, h3, pairingInvariant, Confirmation.init]

/-- Witness for the amended claim C1 at a concrete input: deserializing a
stream with hash 5 and index 0 yields a pairing-satisfying confirmation. -/
theorem pairing_per_operation_witness :
    pairingInvariant (unserializeConfirm 5 0) :=
  (pairing_per_operation Confirmation.init 5 0).2.2.2.2 (by decide)

/-! ## Serialization round trip -/

/-- Claim C10, counterexample: a Confirmed transaction whose confirmation
carries a non-null block hash (hash 5) but in-block index -1 satisfies the
stated pairing invariant, yet serializing and deserializing it yields status
`CONFLICTED`, not `CONFIRMED` — because `Serialize` writes the index as is and
`Unserialize` interprets index -1 with a hash other than `ABANDON_HASH` as
conflicted. -/
theorem roundTrip_not_restoring_status :
    pairingInvariant ⟨.CONFIRMED, 7, 5, -1⟩ ∧
    (roundTripConfirm ⟨.CONFIRMED, 7, 5, -1⟩).status = Status.CONFLICTED ∧
    (roundTripConfirm ⟨.CONFIRMED, 7, 5, -1⟩).status ≠ Status.CONFIRMED := by
  decide

/-- Claim C10 (amended): for a confirmation satisfying the pairing invariant
whose in-block index is not -1 when Unconfirmed or Confirmed and whose block
hash is not the `ABANDON_HASH` sentinel when Conflicted, deserializing the
result of serializing restores the status, and for a Confirmed transaction
also the block hash and in-block index. -/
theorem roundTrip_restores_status (c : Confirmation)
    (hpair : pairingInvariant c)
    (hidx : c.status = .UNCONFIRMED ∨ c.status = .CONFIRMED → c.nIndex ≠ -1)
    (hcf : c.status = .CONFLICTED → c.hashBlock ≠ ABANDON_HASH) :
    (roundTripConfirm c).status = c.status ∧
    (c.status = .CONFIRMED →
      (roundTripConfirm c).hashBlock = c.hashBlock ∧
      (roundTripConfirm c).nIndex = c.nIndex) := by
  obtain ⟨h1, h2⟩ := hpair
  cases hs : c.status
  case UNCONFIRMED =>
    have hz : c.hashBlock = 0 := h2 (Or.inl hs)
    have hi : c.nIndex ≠ -1 := hidx (Or.inl hs)
    simp [roundTripConfirm, serializeConfirm, unserializeConfirm, hs, hz, hi,
      Confirmation.init, ABANDON_HASH]
  case CONFIRMED =>
    have hz : c.hashBlock ≠ 0 := h1 (Or.inl hs)
    have hi : c.nIndex ≠ -1 := hidx (Or.inr hs)
    simp [roundTripConfirm, serializeConfirm, unserializeConfirm, hs, hz, hi,
      Confirmation.init, setConfirmed]
  case CONFLICTED =>
    have hab : c.hashBlock ≠ ABANDON_HASH := hcf hs
    simp [roundTripConfirm, serializeConfirm, unserializeConfirm, hs, hab,
      Confirmation.init, setConflicted]
  case ABANDONED =>
    simp [roundTripConfirm, serializeConfirm, unserializeConfirm, hs,
      Confirmation.init, setAbandoned]

/-- Witness for the amended claim C10: a concrete Confirmed confirmation
(height 3, hash 5, index 2) round-trips to the same status, hash and index. -/
theorem roundTrip_restores_status_witness :
    (roundTripConfirm ⟨.CONFIRMED, 3, 5, 2⟩).status = Status.CONFIRMED ∧
    ((⟨Status.CONFIRMED, 3, 5, 2⟩ : Confirmation).status = .CONFIRMED →
      (roundTripConfirm ⟨.CONFIRMED, 3, 5, 2⟩).hashBlock = 5 ∧
      (roundTripConfirm ⟨.CONFIRMED, 3, 5, 2⟩).nIndex = 2) :=
  roundTrip_restores_status ⟨.CONFIRMED, 3, 5, 2⟩ (by decide)
    (fun _ => by decide) (fun h => by simp at h)

/-! ## Recording observed transactions (abandonment override) -/

/-- Modelled from the spec: the body of `CWallet::AddToWalletIfInvolvingMe` is
not among the available sources (only its declaration and doc comment in the
header).  Per the spec (§4.1 `recordObservedTransaction`) and the header
comment: a transaction that is not tracked is inserted when relevant to owned
scripts and otherwise ignored; an existing entry is updated with the new
observed confirmation when updating is allowed, "the abandoned state is
cleared under the assumption that any further notification of a transaction
that was considered abandoned is an indication that it is not safe to be
considered abandoned".  The result is the stored confirmation after the
call. -/
def addToWalletIfInvolvingMe (existing : Option Confirmation) (relevant : Bool)
    (confirm : Confirmation) (fUpdate : Bool) : Option Confirmation :=
  match existing with
  | none => if relevant then some confirm else none
  | some old => if fUpdate then some confirm else some old

/-- Claim C2: a wallet transaction in the Abandoned state that is observed
again in the mempool (confirmation status Unconfirmed) or in a block
(status Confirmed) moves out of the Abandoned state to the observed status. -/
theorem abandoned_override (old confirm : Confirmation)
    (_hold : old.status = .ABANDONED)
    (hobs : confirm.status = .UNCONFIRMED ∨ confirm.status = .CONFIRMED) :
    ∀ relevant : Bool, ∃ new,
      addToWalletIfInvolvingMe (some old) relevant confirm true = some new ∧
      new.status ≠ .ABANDONED ∧ new.status = confirm.status := by
  intro relevant
  refine ⟨confirm, rfl, ?_, rfl⟩
  rcases hobs with h | h <;> simp [h]

/-- Witness for claim C2: a concrete abandoned entry observed again in the
mempool leaves the Abandoned state. -/
theorem abandoned_override_witness :
    ∃ new, addToWalletIfInvolvingMe (some ⟨.ABANDONED, 0, 0, 0⟩) true
        ⟨.UNCONFIRMED, 0, 0, 0⟩ true = some new ∧
      new.status ≠ Status.ABANDONED ∧ new.status = Status.UNCONFIRMED :=
  abandoned_override ⟨.ABANDONED, 0, 0, 0⟩ ⟨.UNCONFIRMED, 0, 0, 0⟩ rfl
    (Or.inl rfl) true

/-! ## Depth in main chain -/

/-- Modelled from the spec: the body of `CWalletTx::GetDepthInMainChain` is
not among the available sources; only its declaration and contract comment
("<0: conflicts with a transaction this deep in the blockchain; 0: in memory
pool, waiting to be included in a block; >=1: this many blocks deep in the
main chain") are.  Per the spec §4.1 depth computation: 0 for a non-abandoned
transaction with a null block hash (mempool or not yet broadcast) and for an
abandoned one; otherwise `current_tip_height - block_height + 1`, negated for
a conflicted transaction (whose recorded height is the conflicting block's). -/
def GetDepthInMainChain (c : Confirmation) (tipHeight : Int) : Int :=
  if c.status = .UNCONFIRMED ∨ c.status = .ABANDONED then 0
  else (tipHeight - c.block_height + 1) * (if c.status = .CONFLICTED then -1 else 1)

/-- Claim C3: the depth computation returns a negative value for a Conflicted
transaction (in magnitude the depth of the conflicting block), 0 for an
unconfirmed transaction present in the mempool, and
`current_tip_height - confirmation_height + 1` for a Confirmed one. -/
theorem depth_by_status (c : Confirmation) (tip : Int) (inMempool : Bool)
    (htip : c.block_height ≤ tip) :
    (c.status = .CONFLICTED →
      GetDepthInMainChain c tip = -(tip - c.block_height + 1) ∧
      GetDepthInMainChain c tip < 0) ∧
    (c.status = .UNCONFIRMED → inMempool = true → GetDepthInMainChain c tip = 0) ∧
    (c.status = .CONFIRMED → GetDepthInMainChain c tip = tip - c.block_height + 1) := by
  refine ⟨?_, ?_, ?_⟩
  · intro h
    have hd : GetDepthInMainChain c tip = -(tip - c.block_height + 1) := by
      simp [GetDepthInMainChain, h, mul_neg_one]
    exact ⟨hd, by rw [hd]; omega⟩
  · intro h _
    simp [GetDepthInMainChain, h]
  · intro h
    simp [GetDepthInMainChain, h]

/-- Witness for claim C3 at concrete inputs: with the tip at height 10, a
transaction confirmed at height 3 has depth 8, and one conflicted at height 3
has depth -8. -/
theorem depth_by_status_witness :
    GetDepthInMainChain ⟨.CONFIRMED, 3, 5, 0⟩ 10 = 10 - 3 + 1 ∧
    GetDepthInMainChain ⟨.CONFLICTED, 3, 5, 0⟩ 10 = -(10 - 3 + 1) :=
  ⟨(depth_by_status ⟨.CONFIRMED, 3, 5, 0⟩ 10 true (by decide)).2.2 rfl,
   ((depth_by_status ⟨.CONFLICTED, 3, 5, 0⟩ 10 true (by decide)).1 rfl).1⟩

/-! ## Coin selection -/

/-- The selection-relevant view of a `COutput`: depth in chain (`nDepth`),
whether the owning transaction originated from this wallet, and the output
value. -/
structure COutput where
  nDepth : Int
  fromMe : Bool
  value : Int
  deriving DecidableEq, Repr

/-- Modelled from the spec: the bodies of `CWallet::AvailableCoins` and
`CWallet::SelectCoins` are not among the available sources.  Per the header
contract ("Never select unconfirmed coins if they are not ours") and the spec
§4.2, an output that is unconfirmed (depth below 1) and did not originate from
this wallet is eligible only when coin_control explicitly allows unsafe
inputs. -/
def coinEligible (allowUnsafe : Bool) (o : COutput) : Bool :=
  allowUnsafe || decide (¬ (o.nDepth < 1 ∧ o.fromMe = false))

/-- Total value of a list of candidate outputs. -/
def sumValues (l : List COutput) : Int := (l.map COutput.value).sum

/-- Modelled from the spec: the fallback accumulation of §4.2's `select` — the
greedy heuristic "accumulates outputs until the target plus estimated fee is
met".  Outputs are taken in order until the remaining target is covered. -/
def accumulate : List COutput → Int → List COutput
  | [], _ => []
  | o :: rest, target =>
      if target ≤ 0 then [] else o :: accumulate rest (target - o.value)

/-- Modelled from the spec: the body of `CWallet::SelectCoinsMinConf` is not
among the available sources.  Per the header contract and the spec §4.2, it
assembles a coin set whose value reaches the target and "fails (returns
false) when no combination reaches target_value given current candidates";
failure is represented as `none`. -/
def SelectCoinsMinConf (target : Int) (groups : List COutput) :
    Option (List COutput) :=
  if target ≤ sumValues groups then some (accumulate groups target) else none

/-- Modelled from the spec: the body of `CWallet::SelectCoins` is not among
the available sources.  Per the header contract and the spec §4.2, it filters
the available candidates by the safety policy (dropping unconfirmed coins not
from this wallet unless coin_control allows unsafe inputs) and delegates to
`SelectCoinsMinConf`, returning its failure directly to the caller. -/
def SelectCoins (coins : List COutput) (target : Int) (allowUnsafe : Bool) :
    Option (List COutput) :=
  SelectCoinsMinConf target (coins.filter (coinEligible allowUnsafe))

/-- Every output in an accumulated set comes from the candidate list. -/
theorem accumulate_mem {o : COutput} :
    ∀ (xs : List COutput) (t : Int), o ∈ accumulate xs t → o ∈ xs
  | [], t, h => by simp [accumulate] at h
  | x :: rest, t, h => by
    by_cases ht : t ≤ 0
    · simp [accumulate, ht] at h
    · simp only [accumulate, ht, if_false, List.mem_cons] at h
      rcases h with h | h
      · exact h ▸ List.mem_cons_self _ _
      · exact List.mem_cons_of_mem _ (accumulate_mem rest _ h)

/-- Claim C4: when coin_control does not allow unsafe inputs, the set chosen
by `SelectCoins` contains no output that is both unconfirmed and not
originated by this wallet. -/
theorem selectCoins_excludes_unsafe (coins : List COutput) (target : Int)
    (chosen : List COutput)
    (h : SelectCoins coins target false = some chosen) :
    ∀ o ∈ chosen, ¬ (o.nDepth < 1 ∧ o.fromMe = false) := by
  intro o ho
  unfold SelectCoins SelectCoinsMinConf at h
  by_cases hc : target ≤ sumValues (coins.filter (coinEligible false))
  · simp only [hc, if_true, Option.some.injEq] at h
    subst h
    have hmem := accumulate_mem _ _ ho
    have hel := List.of_mem_filter hmem
    have hsafe : (1 : Int) ≤ o.nDepth ∨ o.fromMe = true := by
      simpa [coinEligible] using hel
    rintro ⟨hd, hf⟩
    rcases hsafe with hcase | hcase
    · omega
    · simp [hf] at hcase
  · simp [hc] at h

/-- Witness for claim C4: at a concrete candidate set (one 2-deep self coin),
the chosen set contains no unsafe output. -/
theorem selectCoins_excludes_unsafe_witness :
    ¬ ((COutput.mk 2 true 10).nDepth < 1 ∧ (COutput.mk 2 true 10).fromMe = false) :=
  selectCoins_excludes_unsafe [⟨2, true, 10⟩] 5 [⟨2, true, 10⟩] (by decide)
    ⟨2, true, 10⟩ (by decide)

/-- Claim C5: when no subset of the candidates reaches the target value, coin
selection fails — `SelectCoins` (via `SelectCoinsMinConf`) returns the
failure to its immediate caller. -/
theorem selectCoins_fails_when_unreachable (coins : List COutput)
    (target : Int) (allowUnsafe : Bool)
    (h : ∀ S : List COutput, List.Sublist S coins → sumValues S < target) :
    SelectCoins coins target allowUnsafe = none := by
  have hs := h (coins.filter (coinEligible allowUnsafe)) (List.filter_sublist coins)
  unfold SelectCoins SelectCoinsMinConf
  simp [not_le.mpr hs]

/-- Witness for claim C5: with no candidates, no subset reaches a positive
target and selection returns failure. -/
theorem selectCoins_fails_when_unreachable_witness :
    SelectCoins [] 1 false = none :=
  selectCoins_fails_when_unreachable [] 1 false (by
    intro S hS
    rw [List.sublist_nil] at hS
    subst hS
    decide)

/-! ## prepareTransaction -/

/-- `WalletModel::SendCoinsReturn` status codes used by `prepareTransaction`. -/
inductive SendCoinsReturn
  | OK
  | InvalidAmount
  | InvalidAddress
  | AmountExceedsBalance
  | AmountWithFeeExceedsBalance
  | DuplicateAddress
  | TransactionCreationFailed
  | AbsurdFee
  deriving DecidableEq, Repr

/-- A `SendCoinsRecipient` as `prepareTransaction` consumes it: the address
(an identifier, for duplicate detection), whether `validateAddress` accepts
it, the amount, and the subtract-fee-from-amount flag. -/
structure SendCoinsRecipient where
  address : Nat
  addressValid : Bool
  amount : Int
  fSubtractFeeFromAmount : Bool
  deriving DecidableEq, Repr

/-- The outcome of the `m_wallet->createTransaction` call inside
`prepareTransaction`: whether a transaction came back (`newTx` non-null) and
the fee reported through `nFeeRequired`. -/
structure CreateTxResult where
  success : Bool
  feeRequired : Int
  deriving DecidableEq, Repr

/-- The validation loop of `prepareTransaction`: per recipient, first the
address check (`InvalidAddress`), then the amount check (`InvalidAmount`),
returning at the first failure; `none` when every recipient passes. -/
def precheckRecipients : List SendCoinsRecipient → Option SendCoinsReturn
  | [] => none
  | r :: rest =>
      if r.addressValid = false then some .InvalidAddress
      else if r.amount ≤ 0 then some .InvalidAmount
      else precheckRecipients rest

/-- `total`, the sum of recipient amounts accumulated by the loop. -/
def totalAmount (rs : List SendCoinsRecipient) : Int :=
  (rs.map SendCoinsRecipient.amount).sum

/-- `fSubtractFeeFromAmount`, set when any recipient carries the flag. -/
def anySubtractFee (rs : List SendCoinsRecipient) : Bool :=
  rs.any SendCoinsRecipient.fSubtractFeeFromAmount

/-- The duplicate check `setAddress.size() != nAddresses`: true when two
recipients share an address. -/
def hasDuplicateAddress (rs : List SendCoinsRecipient) : Bool :=
  decide (¬ (rs.map SendCoinsRecipient.address).Nodup)

/-- `WalletModel::prepareTransaction`, with the wallet collaborators passed
in as values: `balance` is `getAvailableBalance(coinControl)`, `ct` the
outcome of `createTransaction`, `maxTxFee` is `getDefaultMaxTxFee()`.
Follows the source's order: empty recipient list returns OK; the validation
loop; the duplicate-address check; `total > nBalance`; on creation failure,
`AmountWithFeeExceedsBalance` only when no recipient subtracts the fee and
`total + nFeeRequired > nBalance`, else `TransactionCreationFailed`; then the
absurd-fee check `nFeeRequired > maxTxFee` on the created transaction. -/
def prepareTransaction (recipients : List SendCoinsRecipient) (balance : Int)
    (ct : CreateTxResult) (maxTxFee : Int) : SendCoinsReturn :=
  if recipients.isEmpty then .OK
  else
    match precheckRecipients recipients with
    | some err => err
    | none =>
      if hasDuplicateAddress recipients then .DuplicateAddress
      else if balance < totalAmount recipients then .AmountExceedsBalance
      else if ct.success = false then
        if anySubtractFee recipients = false ∧
            balance < totalAmount recipients + ct.feeRequired
        then .AmountWithFeeExceedsBalance
        else .TransactionCreationFailed
      else if maxTxFee < ct.feeRequired then .AbsurdFee
      else .OK

/-- A recipient list in which every address is valid and every amount is
positive passes the validation loop. -/
theorem precheck_none_of_valid : ∀ rs : List SendCoinsRecipient,
    (∀ r ∈ rs, r.addressValid = true ∧ 0 < r.amount) →
    precheckRecipients rs = none
  | [], _ => rfl
  | r :: rest, h => by
    obtain ⟨hv, ha⟩ := h r (List.mem_cons_self _ _)
    simp only [precheckRecipients, hv, not_le.mpr ha, if_false]
    exact precheck_none_of_valid rest (fun x hx => h x (List.mem_cons_of_mem _ hx))

/-- Claim C6, counterexample: a request with one valid recipient (amount 5,
subtract-fee-from-amount set) against balance 10, where transaction creation
fails reporting a required fee of 100, has `total + nFeeRequired = 105`
exceeding the balance, yet `prepareTransaction` returns
`TransactionCreationFailed`, not `AmountWithFeeExceedsBalance` — the code
returns the latter only when no recipient subtracts the fee from the
amount. -/
theorem prepareTransaction_fee_result_cx :
    prepareTransaction [⟨0, true, 5, true⟩] 10 ⟨false, 100⟩ 1000000
        = SendCoinsReturn.TransactionCreationFailed ∧
    ((10 : Int) < 5 + 100) ∧
    prepareTransaction [⟨0, true, 5, true⟩] 10 ⟨false, 100⟩ 1000000
        ≠ SendCoinsReturn.AmountWithFeeExceedsBalance := by
  decide

/-- Claim C6 (amended): for a request that passes input validation (non-empty
recipient list, all addresses valid, all amounts positive, no duplicate
addresses), policy failures are reported as a typed result: total exceeding
the balance yields `AmountExceedsBalance`; creation failure with no recipient
subtracting the fee from the amount and total plus required fee exceeding the
balance yields `AmountWithFeeExceedsBalance`; a created transaction whose
required fee exceeds the wallet's default maximum yields `AbsurdFee`. -/
theorem prepareTransaction_policy (recipients : List SendCoinsRecipient)
    (balance : Int) (ct : CreateTxResult) (maxTxFee : Int)
    (hne : recipients ≠ [])
    (hvalid : ∀ r ∈ recipients, r.addressValid = true ∧ 0 < r.amount)
    (hnodup : (recipients.map SendCoinsRecipient.address).Nodup) :
    (balance < totalAmount recipients →
      prepareTransaction recipients balance ct maxTxFee
        = .AmountExceedsBalance) ∧
    (totalAmount recipients ≤ balance → ct.success = false →
      anySubtractFee recipients = false →
      balance < totalAmount recipients + ct.feeRequired →
      prepareTransaction recipients balance ct maxTxFee
        = .AmountWithFeeExceedsBalance) ∧
    (totalAmount recipients ≤ balance → ct.success = true →
      maxTxFee < ct.feeRequired →
      prepareTransaction recipients balance ct maxTxFee = .AbsurdFee) := by
  have hpre := precheck_none_of_valid recipients hvalid
  have hdup : hasDuplicateAddress recipients = false := by
    simp [hasDuplicateAddress, hnodup]
  have hemp : recipients.isEmpty = false := by
    cases recipients with
    | nil => exact absurd rfl hne
    | cons a as => rfl
  refine ⟨?_, ?_, ?_⟩
  · intro h1
    simp [prepareTransaction, hemp, hpre, hdup, h1]
  · intro h1 h2 h3 h4
    simp [prepareTransaction, hemp, hpre, hdup, not_lt.mpr h1, h2, h3, h4]
  · intro h1 h2 h3
    simp [prepareTransaction, hemp, hpre, hdup, not_lt.mpr h1, h2, h3]

/-- Witness for the amended claim C6 at a concrete request: one valid
recipient of amount 5 (not subtracting the fee), balance 10, creation failing
with required fee 100 — the result is `AmountWithFeeExceedsBalance`. -/
theorem prepareTransaction_policy_witness :
    prepareTransaction [⟨0, true, 5, false⟩] 10 ⟨false, 100⟩ 7
      = SendCoinsReturn.AmountWithFeeExceedsBalance :=
  (prepareTransaction_policy [⟨0, true, 5, false⟩] 10 ⟨false, 100⟩ 7
    (by decide) (by decide) (by decide)).2.1 (by decide) rfl (by decide)
    (by decide)

end YuPost
